import Mathlib

/-!
Shallow embedding of the retrieval / routing / streaming pipeline of the
claims-ai-pipeline repository (src/backend/services/gemini_service.py,
src/backend/services/rag_service.py, src/backend/database.py,
src/backend/main.py).

Modelling conventions:
- Python strings are modelled as List Char; str.lower and str.upper as
  maps of Char.toLower / Char.toUpper.
- Embedding vectors are lists of integers (exact linearly ordered
  arithmetic standing in for the float vectors); the FAISS IndexFlatL2 search
  is modelled exactly: squared Euclidean distance, the k nearest entries
  in ascending distance (ties by insertion order), and, when the index
  holds fewer than k vectors, padding of the missing slots with label -1
  and distance FLT_MAX.
- Fallible external calls (store queries, the generative model) are
  modelled with Except / an explicit failure field, matching the
  try/except structure of the source.
- Async generators are modelled as the list of fragments they yield; the
  catch-all handler in stream_response makes the modelled function total.
-/

/-- One row of the claims projection used by the index build
(SELECT claim_id, claim_type, claim_status, diagnosis_code): each field is
an optional string, none standing for SQL NULL. -/
structure Claim where
  claim_id : Option (List Char)
  claim_type : Option (List Char)
  claim_status : Option (List Char)
  diagnosis_code : Option (List Char)
deriving DecidableEq, Inhabited, Repr

/-- The mutable RAG state of GeminiService: rag_index (the vectors held by
the FAISS index, none when unbuilt), rag_document_metadata and
rag_document_texts. -/
structure RagState where
  index : Option (List (List ℤ))
  metadata : List Claim
  texts : List (List Char)
deriving DecidableEq, Repr

/-- Result shape of the _search_rag_index dictionary. -/
structure SearchResult where
  results : List Claim
  fallback_needed : Bool
deriving DecidableEq, Repr

/-- Character class of the regular expression [a-z0-9-] used by the
identifier pattern. -/
def isIdChar (c : Char) : Bool :=
  (Char.ofNat 97 ≤ c && c ≤ Char.ofNat 122) ||
  (Char.ofNat 48 ≤ c && c ≤ Char.ofNat 57) ||
  c == Char.ofNat 45

/-- Attempt to match the regular expression clm-[a-z0-9-]+ at the head of
the list (anchored match, greedy run). -/
def matchClmAt (l : List Char) : Option (List Char) :=
  match l with
  | 'c' :: 'l' :: 'm' :: '-' :: rest =>
    let run := rest.takeWhile isIdChar
    if run.isEmpty then none else some ('c' :: 'l' :: 'm' :: '-' :: run)
  | _ => none

/-- Model of re.search for the pattern clm-[a-z0-9-]+ : the match at the
leftmost position where one exists, extended greedily. -/
def reSearchClm : List Char → Option (List Char)
  | [] => none
  | c :: rest =>
    match matchClmAt (c :: rest) with
    | some m => some m
    | none => reSearchClm rest

/-- Decidable statement that some position of the text carries a match of
the identifier pattern (used to state claims about texts that contain the
pattern anywhere). -/
def hasClmPattern (s : List Char) : Bool :=
  s.tails.any (fun tl => (matchClmAt tl).isSome)

/-- Shape of a string matched by clm-[a-z0-9-]+ : the literal head clm-
followed by a nonempty run of class characters. -/
def clmShape (m : List Char) : Bool :=
  match m with
  | 'c' :: 'l' :: 'm' :: '-' :: run => !run.isEmpty && run.all isIdChar
  | _ => false

/-- The three intents of the hybrid router in stream_response. -/
inductive Intent where
  | idLookup (id : List Char)
  | countQuery
  | semanticSearch (text : List Char)
deriving DecidableEq, Repr

/-- The fixed keyword set of the count intent. -/
def countKeywords : List (List Char) :=
  ["how many".toList, "count".toList, "total number".toList]

/-- The intent classification of stream_response lines 113-141: first the
identifier regex on the lowercased message, then the count keywords, else
semantic search on the raw message. -/
def classify (msg : List Char) : Intent :=
  let lower := msg.map Char.toLower
  match reSearchClm lower with
  | some m => .idLookup (m.map Char.toUpper)
  | none =>
    if countKeywords.any (fun kw => decide (kw <:+: lower)) then .countQuery
    else .semanticSearch msg

theorem takeWhile_all_self (p : Char → Bool) (l : List Char) :
    (l.takeWhile p).all p = true := by
  induction l with
  | nil => rfl
  | cons c rest ih =>
    by_cases h : p c = true
    · simp [List.takeWhile, h, ih]
    · simp [List.takeWhile, h]

theorem matchClmAt_shape (l m : List Char) (h : matchClmAt l = some m) :
    clmShape m = true ∧ ∃ suf, m ++ suf = l := by
  unfold matchClmAt at h
  split at h
  case h_2 => exact absurd h (by simp)
  case h_1 rest =>
    by_cases he : (rest.takeWhile isIdChar).isEmpty = true
    · simp [he] at h
    · simp only [he, if_false] at h
      obtain rfl := (Option.some.injEq _ _).mp h
      constructor
      · simp [clmShape, takeWhile_all_self]
        simpa using he
      · refine ⟨rest.dropWhile isIdChar, ?_⟩
        simp [List.takeWhile_append_dropWhile]

theorem reSearchClm_shape (s m : List Char) (h : reSearchClm s = some m) :
    clmShape m = true ∧ m <:+: s := by
  induction s with
  | nil => simp [reSearchClm] at h
  | cons c rest ih =>
    unfold reSearchClm at h
    cases hm : matchClmAt (c :: rest) with
    | some m' =>
      rw [hm] at h
      obtain rfl := (Option.some.injEq _ _).mp h
      obtain ⟨hs, suf, he⟩ := matchClmAt_shape _ _ hm
      exact ⟨hs, [], suf, by simpa using he⟩
    | none =>
      rw [hm] at h
      obtain ⟨hs, pre, suf, he⟩ := ih h
      exact ⟨hs, c :: pre, suf, by simp [← he]⟩

theorem reSearchClm_isSome_of_hasClmPattern (s : List Char)
    (h : hasClmPattern s = true) : (reSearchClm s).isSome = true := by
  induction s with
  | nil => simp [hasClmPattern, matchClmAt] at h
  | cons c rest ih =>
    unfold hasClmPattern at h
    rw [List.tails_cons] at h
    simp only [List.any_cons] at h
    unfold reSearchClm
    cases hm : matchClmAt (c :: rest) with
    | some m' => simp
    | none =>
      rw [hm] at h
      simp only [Option.isSome_none, Bool.false_or] at h
      exact ih h

/-- Squared Euclidean (L2) distance, the metric of faiss.IndexFlatL2. -/
def sqDist (u v : List ℤ) : ℤ :=
  (List.zipWith (fun a b => (a - b) ^ 2) u v).sum

/-- The distance value FAISS reports for padded (absent) neighbours,
modelling FLT_MAX. -/
def fltMax : ℤ := 2 ^ 128

/-- Distance/label pair for every stored vector, labels in insertion
order, as IndexFlatL2 scores them against a query. -/
def faissScores (vecs : List (List ℤ)) (q : List ℤ) : List (ℤ × Int) :=
  (List.range vecs.length).map (fun i => (sqDist q (vecs.getD i []), (i : Int)))

/-- Comparison used to rank scored vectors: ascending distance, ties
broken by insertion order. -/
def faissLe (a b : ℤ × Int) : Bool :=
  decide (a.1 < b.1 ∨ (a.1 = b.1 ∧ a.2 ≤ b.2))

/-- Stable insertion of a scored vector into a ranked list. -/
def insertScore (p : ℤ × Int) : List (ℤ × Int) → List (ℤ × Int)
  | [] => [p]
  | q :: rest => if faissLe p q then p :: q :: rest else q :: insertScore p rest

/-- Stable sort of the scored vectors by ascending distance. -/
def sortScores : List (ℤ × Int) → List (ℤ × Int)
  | [] => []
  | p :: rest => insertScore p (sortScores rest)

/-- Model of faiss.IndexFlatL2.search for one query: the k nearest
stored vectors by squared L2 distance in ascending order, padded with
(FLT_MAX, -1) entries when fewer than k vectors are stored. -/
def faissSearch (vecs : List (List ℤ)) (q : List ℤ) (k : Nat) : List (ℤ × Int) :=
  (sortScores (faissScores vecs q)).take k ++
    List.replicate (k - vecs.length) (fltMax, -1)

/-- Distance of the rank-0 (first returned) entry of a search result. -/
def rank0 (dr : List (ℤ × Int)) : ℤ :=
  (dr.map Prod.fst).headD 0

/-- Python list indexing with a possibly negative index: l[i] is l[len+i]
for negative i, and an out-of-range index is an IndexError (none). -/
def pyIndex {α : Type} (l : List α) (i : Int) : Option α :=
  if 0 ≤ i then l[i.toNat]?
  else if i.natAbs ≤ l.length then l[l.length - i.natAbs]? else none

/-- The list comprehension building the metadata results: each label is
looked up by Python indexing; a failing lookup is an IndexError
propagating out of the comprehension (none). -/
def pyGetList {α : Type} (l : List α) : List Int → Option (List α)
  | [] => some []
  | i :: is => do
      let c ← pyIndex l i
      let cs ← pyGetList l is
      pure (c :: cs)

/-- External components consumed by the service: the per-text embedding
encoder, a flag for a failing embedding step during a build, and the
generative model (applied to the full prompt of a fresh, history-less
chat session). -/
structure GenOutcome where
  pre : List (List Char)
  err : Option (List Char)
deriving DecidableEq, Repr

structure ExtModel where
  embed : List Char → List ℤ
  encodeFails : Bool
  gen : List Char → GenOutcome

/-- Model of GeminiService._search_rag_index: fallback when no index or
no metadata, otherwise encode the query, run the FAISS search, apply the
confidence gate (empty result or rank-0 distance strictly above the
threshold), and map labels back to metadata; any IndexError raised while
mapping is caught by the except clause and degrades to fallback. -/
def searchRagIndex (st : RagState) (ext : ExtModel) (query : List Char)
    (k : Nat) (t : ℤ) : SearchResult :=
  match st.index with
  | none => ⟨[], true⟩
  | some vecs =>
    if st.metadata.isEmpty then ⟨[], true⟩
    else
      let dr := faissSearch vecs (ext.embed query) k
      if dr.isEmpty ∨ t < rank0 dr then ⟨[], true⟩
      else
        match pyGetList st.metadata (dr.map Prod.snd) with
        | some res => ⟨res, false⟩
        | none => ⟨[], true⟩

/-- The search call as a state transition: the method reads the snapshot
but never writes it and never calls the index build, so the state is
returned unchanged. -/
def searchStep (st : RagState) (ext : ExtModel) (query : List Char)
    (k : Nat) (t : ℤ) : RagState × SearchResult :=
  (st, searchRagIndex st ext query k t)

/-- Truthiness of claim.get, deciding whether a fetched row is skipped by
the build (missing or empty claim_id). -/
def truthyId (c : Claim) : Bool :=
  match c.claim_id with
  | none => false
  | some s => !s.isEmpty

/-- Value rendered by a Python f-string for an optional field (None for
SQL NULL). -/
def optStr : Option (List Char) → List Char
  | none => "None".toList
  | some s => s

/-- The deterministic multi-line text template a claim row is rendered
into before embedding. -/
def renderDoc (c : Claim) : List Char :=
  "Claim ID: ".toList ++ optStr c.claim_id ++
  "\nClaim Type: ".toList ++ optStr c.claim_type ++
  "\nStatus: ".toList ++ optStr c.claim_status ++
  "\nDiagnosis Code: ".toList ++ optStr c.diagnosis_code

/-- Model of GeminiService._build_rag_index, returning the state after
the build. A failing fetch is caught by the except clause, which sets
rag_index to None (the metadata lists are untouched because the failure
precedes the clear). An empty fetch returns before any mutation. When
every row is skipped the lists have been cleared but the index
assignment is never reached. A failing embedding step is caught after
the lists were refilled, setting rag_index to None. Otherwise the new
vectors are installed together with the new metadata. -/
def buildRag (st : RagState) (ext : ExtModel)
    (fetch : Except (List Char) (List Claim)) : RagState :=
  match fetch with
  | .error _ => { st with index := none }
  | .ok claims =>
    if claims.isEmpty then st
    else
      let docs := claims.filter truthyId
      let texts := docs.map renderDoc
      if texts.isEmpty then { st with metadata := [], texts := [] }
      else if ext.encodeFails then
        { index := none, metadata := docs, texts := texts }
      else
        { index := some (texts.map ext.embed), metadata := docs, texts := texts }

/-- The sequence of states the service object passes through during
_build_rag_index, one entry per primitive mutation, starting with the
state at entry (which is also the state during the single await, the
store fetch, since it precedes every mutation): clearing the metadata
list, clearing the texts list, each append of a metadata row and of its
rendered text, and finally the index assignment (or its reset to None
when the embedding step fails). -/
def buildTrace (st : RagState) (ext : ExtModel)
    (fetch : Except (List Char) (List Claim)) : List RagState :=
  match fetch with
  | .error _ => [st, { st with index := none }]
  | .ok claims =>
    if claims.isEmpty then [st]
    else
      let docs := claims.filter truthyId
      let c1 : RagState := { st with metadata := [] }
      let c2 : RagState := { st with metadata := [], texts := [] }
      if docs.isEmpty then [st, c1, c2]
      else
        let half := fun i =>
          { c2 with metadata := docs.take (i + 1), texts := (docs.take i).map renderDoc }
        let full := fun i =>
          { c2 with metadata := docs.take (i + 1), texts := (docs.take (i + 1)).map renderDoc }
        let app := (List.range docs.length).flatMap (fun i => [half i, full i])
        let fin : RagState :=
          if ext.encodeFails then
            { index := none, metadata := docs, texts := docs.map renderDoc }
          else
            { index := some ((docs.map renderDoc).map ext.embed),
              metadata := docs, texts := docs.map renderDoc }
        [st, c1, c2] ++ app ++ [fin]

/-- The store adapter as seen by stream_response: the three SELECT
statements it can issue, each either returning rows or raising
(Database.execute_query re-raises any cursor failure). -/
structure Db where
  fetchClaims : Except (List Char) (List Claim)
  lookupById : List Char → Except (List Char) (List Claim)
  countTotal : Except (List Char) (List Nat)

/-- An honest relational store over a concrete claims table: fetch is the
capped projection, lookup filters on the exact claim_id, and the count
query returns the single total row. -/
def storeDb (table : List Claim) : Db :=
  { fetchClaims := .ok (table.take 5000)
  , lookupById := fun cid => .ok (table.filter (fun c => c.claim_id = some cid))
  , countTotal := .ok [table.length] }

/-- ASCII single quote, written by code point to keep it out of literals. -/
def sqChar : Char := Char.ofNat 39

/-- Opening and closing curly brace characters of a Python dict repr. -/
def lbr : Char := Char.ofNat 123

def rbr : Char := Char.ofNat 125

/-- Python repr of an optional string value: quoted when present, None
when NULL. -/
def pyReprOpt : Option (List Char) → List Char
  | none => "None".toList
  | some s => sqChar :: s ++ [sqChar]

/-- Python str of the metadata dict of one claim row, with the four
projected columns in insertion order. -/
def reprClaim (c : Claim) : List Char :=
  [lbr] ++ (sqChar :: "claim_id".toList ++ [sqChar]) ++ ": ".toList ++ pyReprOpt c.claim_id
  ++ ", ".toList ++ (sqChar :: "claim_type".toList ++ [sqChar]) ++ ": ".toList ++ pyReprOpt c.claim_type
  ++ ", ".toList ++ (sqChar :: "claim_status".toList ++ [sqChar]) ++ ": ".toList ++ pyReprOpt c.claim_status
  ++ ", ".toList ++ (sqChar :: "diagnosis_code".toList ++ [sqChar]) ++ ": ".toList ++ pyReprOpt c.diagnosis_code
  ++ [rbr]

/-- Context rendered when the exact ID lookup found a row. -/
def foundMsg (cid : List Char) (c : Claim) : List Char :=
  "Here is the data found for claim ID ".toList ++ cid ++ ":\n".toList ++ reprClaim c

/-- Context rendered when the exact ID lookup found nothing. -/
def notFoundMsg (cid : List Char) : List Char :=
  "I could not find any data for the claim ID ".toList ++ cid ++ ".".toList

/-- Context rendered for the count intent. -/
def countMsg (n : Nat) : List Char :=
  "The total number of claims in the database is ".toList ++ (Nat.repr n).toList ++ ".".toList

/-- Context rendered for a confident semantic search: a header plus one
line per retrieved document. -/
def semanticMsg (docs : List Claim) : List Char :=
  "Based on the following relevant claims data:\n".toList ++
    docs.flatMap (fun d => "- ".toList ++ reprClaim d ++ "\n".toList)

/-- Context rendered when the semantic search degraded to fallback. -/
def noDataMsg : List Char :=
  "No specific claims data was found in the database that matches your query.".toList

/-- The routing and context-assembly section of stream_response: the
classified intent picks the store query or the semantic search, and any
store failure propagates out of this section (to be caught only by the
catch-all of the streamer). -/
def routeContext (st : RagState) (db : Db) (ext : ExtModel) (t : ℤ)
    (msg : List Char) : Except (List Char) (List Char) :=
  match classify msg with
  | .idLookup cid => do
      let rows ← db.lookupById cid
      match rows with
      | [] => pure (notFoundMsg cid)
      | r :: _ => pure (foundMsg cid r)
  | .countQuery => do
      let rows ← db.countTotal
      pure (countMsg (match rows with | [] => 0 | n :: _ => n))
  | .semanticSearch text =>
      let sr := searchRagIndex st ext text 3 t
      pure (if sr.fallback_needed then noDataMsg else semanticMsg sr.results)

/-- The prompt fed to the generative model: the fixed instruction text
around the rendered context and the original user message (the indented
layout of the f-string is kept verbatim). -/
def promptOf (ctx msg : List Char) : List Char :=
  "You are a helpful assistant for analyzing insurance claims.\n            \n            Context:\n            ".toList
  ++ ctx
  ++ "\n            \n            Based ONLY on the context provided, please answer the user".toList
  ++ [sqChar]
  ++ "s question.\n            User: ".toList
  ++ msg
  ++ "\n            ".toList

/-- The in-band error fragment yielded by the catch-all handler of
stream_response (warning sign, variation selector, then the message of
the caught exception). -/
def errFrag (e : List Char) : List Char :=
  [Char.ofNat 0x26A0, Char.ofNat 0xFE0F] ++
    " Error processing your request: ".toList ++ e

/-- The state of the service after the lazy-build step at the top of
stream_response: the build runs only when no index exists. -/
def postBuildState (st : RagState) (db : Db) (ext : ExtModel) : RagState :=
  if st.index.isNone then buildRag st ext db.fetchClaims else st

/-- Fragments forwarded from one generative-model call: every nonempty
text delta in order, then, when the iteration raised, the single error
fragment of the catch-all handler. -/
def genFragments (g : GenOutcome) : List (List Char) :=
  g.pre.filter (fun s => !s.isEmpty) ++
    (match g.err with | none => [] | some e => [errFrag e])

/-- Model of GeminiService.stream_response: lazily build the index, route
the message to a context, prompt a fresh history-less chat session, and
forward the streamed chunks; any exception escaping the body (in
particular a store-query failure) is caught by the catch-all handler,
which yields the single error fragment. The conversation identifier is
accepted and never read. Returns the state after the call and the
fragments yielded. -/
def streamResponse (st : RagState) (db : Db) (ext : ExtModel) (t : ℤ)
    (msg : List Char) (convId : Option (List Char)) :
    RagState × List (List Char) :=
  let st1 := postBuildState st db ext
  match routeContext st1 db ext t msg with
  | .error e => (st1, [errFrag e])
  | .ok ctx => (st1, genFragments (ext.gen (promptOf ctx msg)))

/-- One event of the HTTP chat stream: a chunk frame or the terminal done
frame emitted by the /chat endpoint. -/
inductive StreamItem where
  | chunk (text : List Char)
  | done
deriving DecidableEq, Repr

/-- Model of the /chat endpoint generator in main.py: one chunk frame per
fragment of stream_response, then the done frame. -/
def chatStream (st : RagState) (db : Db) (ext : ExtModel) (t : ℤ)
    (msg : List Char) (convId : Option (List Char)) : List StreamItem :=
  ((streamResponse st db ext t msg convId).2.map StreamItem.chunk) ++ [StreamItem.done]

theorem searchStep_of_index_none (st : RagState) (ext : ExtModel)
    (q : List Char) (k : Nat) (t : ℤ) (h : st.index = none) :
    searchStep st ext q k t = (st, ⟨[], true⟩) := by
  simp [searchStep, searchRagIndex, h]

theorem insertScore_perm (p : ℤ × Int) (l : List (ℤ × Int)) :
    (insertScore p l).Perm (p :: l) := by
  induction l with
  | nil => exact List.Perm.refl _
  | cons q rest ih =>
    unfold insertScore
    by_cases h : faissLe p q = true
    · simp [h]
    · simp only [h, if_false]
      exact (ih.cons q).trans (List.Perm.swap p q rest)

theorem sortScores_perm (l : List (ℤ × Int)) : (sortScores l).Perm l := by
  induction l with
  | nil => exact List.Perm.refl _
  | cons p rest ih =>
    exact (insertScore_perm p (sortScores rest)).trans (ih.cons p)

theorem mem_sortScores {p : ℤ × Int} {l : List (ℤ × Int)} :
    p ∈ sortScores l ↔ p ∈ l :=
  (sortScores_perm l).mem_iff

theorem length_sortScores (l : List (ℤ × Int)) :
    (sortScores l).length = l.length :=
  (sortScores_perm l).length_eq

theorem faissSearch_labels (vecs : List (List ℤ)) (q : List ℤ) (k : Nat) :
    ∀ p ∈ faissSearch vecs q k, p.2 = -1 ∨ (0 ≤ p.2 ∧ p.2 < (vecs.length : Int)) := by
  intro p hp
  unfold faissSearch at hp
  rcases List.mem_append.mp hp with h | h
  · have h2 := mem_sortScores.mp (List.mem_of_mem_take h)
    unfold faissScores at h2
    obtain ⟨i, hi, rfl⟩ := List.mem_map.mp h2
    right
    refine ⟨Int.ofNat_nonneg i, ?_⟩
    show (i : Int) < (vecs.length : Int)
    exact_mod_cast List.mem_range.mp hi
  · obtain rfl := List.eq_of_mem_replicate h
    left
    rfl

theorem pyIndex_isSome {α : Type} (l : List α) (hne : l ≠ []) (i : Int)
    (hi : i = -1 ∨ (0 ≤ i ∧ i < (l.length : Int))) :
    (pyIndex l i).isSome = true := by
  have hpos : 0 < l.length := List.length_pos.mpr hne
  rcases hi with rfl | ⟨h0, hlt⟩
  · unfold pyIndex
    rw [if_neg (by decide), if_pos (by simpa using hpos)]
    have hl : l.length - 1 < l.length := by omega
    simp [List.getElem?_eq_getElem hl]
  · unfold pyIndex
    rw [if_pos h0]
    have hl : i.toNat < l.length := by omega
    simp [List.getElem?_eq_getElem hl]

theorem pyGetList_eq_map {α : Type} [Inhabited α] (l : List α) (labels : List Int)
    (h : ∀ i ∈ labels, (pyIndex l i).isSome = true) :
    pyGetList l labels = some (labels.map (fun i => (pyIndex l i).iget)) := by
  induction labels with
  | nil => rfl
  | cons i is ih =>
    have h1 := h i (by simp)
    have h2 : ∀ j ∈ is, (pyIndex l j).isSome = true := fun j hj => h j (by simp [hj])
    obtain ⟨c, hc⟩ := Option.isSome_iff_exists.mp h1
    simp [pyGetList, hc, ih h2]

/-- C6: on a state with no index snapshot, search returns an empty result
with fallback_needed true and leaves the state untouched: the method
neither writes the snapshot fields nor calls the index build, so no
implicit build can be triggered from a search. -/
theorem search_unbuilt_returns_fallback (st : RagState) (ext : ExtModel)
    (q : List Char) (k : Nat) (t : ℤ) (h : st.index = none) :
    searchStep st ext q k t = (st, ⟨[], true⟩) :=
  searchStep_of_index_none st ext q k t h

/-- Concrete external components used by the witnesses: a constant
one-dimensional encoder, a healthy embedding step, and a generative model
that streams nothing and never raises. -/
def extW : ExtModel := ⟨fun _ => [0], false, fun _ => ⟨[], none⟩⟩

/-- External components whose embedding step raises during a build. -/
def extFailW : ExtModel := ⟨fun _ => [0], true, fun _ => ⟨[], none⟩⟩

/-- External components whose generative model raises before producing
any chunk. -/
def extGenFailW : ExtModel := ⟨fun _ => [0], false, fun _ => ⟨[], some "boom".toList⟩⟩

/-- A claim row with every projected column populated. -/
def claimA : Claim :=
  ⟨some "clm-1".toList, some "Medical".toList, some "Approved".toList, some "J45".toList⟩

/-- A second claim row. -/
def claimB : Claim := ⟨some "clm-2".toList, none, none, none⟩

/-- A fetched row whose claim_id is empty, hence skipped by the build. -/
def claimNoId : Claim := ⟨some [], none, none, none⟩

/-- The unbuilt service state. -/
def stNone : RagState := ⟨none, [], []⟩

/-- A built snapshot of two documents with vectors at 0 and 3. -/
def stW1 : RagState := ⟨some [[0], [3]], [claimA, claimB], []⟩

theorem search_unbuilt_returns_fallback_witness :
    stNone.index = none ∧
    searchStep stNone extW "anything".toList 5 1 = (stNone, ⟨[], true⟩) :=
  ⟨rfl, search_unbuilt_returns_fallback stNone extW "anything".toList 5 1 rfl⟩

/-- C9: the conversation identifier is accepted at the boundary and never
read: for the same message and environment, any two conversation
identifiers (including an absent one) produce the identical post-call
state, fragment sequence and chat stream; every call prompts a fresh
history-less session (the model of the generation call depends only on
the prompt). -/
theorem conversation_id_not_used (st : RagState) (db : Db) (ext : ExtModel)
    (t : ℤ) (msg : List Char) (c₁ c₂ : Option (List Char)) :
    streamResponse st db ext t msg c₁ = streamResponse st db ext t msg c₂ ∧
    chatStream st db ext t msg c₁ = chatStream st db ext t msg c₂ :=
  ⟨rfl, rfl⟩

/-- C4: a message that contains a count keyword and no identifier pattern
is answered from the unconditional total-row-count query: over an honest
store holding any table, the rendered context is exactly the fixed
sentence around the full table cardinality, whatever other qualifying
words the message contains. -/
theorem count_intent_total_context (table : List Claim) (st : RagState)
    (ext : ExtModel) (t : ℤ) (msg : List Char)
    (hid : reSearchClm (msg.map Char.toLower) = none)
    (hkw : countKeywords.any (fun kw => decide (kw <:+: msg.map Char.toLower)) = true) :
    routeContext st (storeDb table) ext t msg = .ok (countMsg table.length) := by
  simp [routeContext, classify, hid, hkw, storeDb]

theorem count_intent_total_context_witness :
    reSearchClm ("how many pending claims are there".toList.map Char.toLower) = none ∧
    countKeywords.any
      (fun kw => decide (kw <:+: "how many pending claims are there".toList.map Char.toLower)) = true ∧
    routeContext stNone (storeDb (List.replicate 42 claimA)) extW 1
      "how many pending claims are there".toList = .ok (countMsg 42) := by
  refine ⟨by decide, by decide, ?_⟩
  have h := count_intent_total_context (List.replicate 42 claimA) stNone extW 1
    "how many pending claims are there".toList (by decide) (by decide)
  simpa using h

/-- C3: any message whose lowercasing contains a substring matching the
identifier pattern clm-[a-z0-9-]+ is classified as an ID lookup whose
identifier is the leftmost greedy match normalized to uppercase; the
conclusion holds whatever count keywords the message also contains, so
this rule takes precedence over the count rule and the semantic default. -/
theorem classify_id_lookup_uppercase (msg : List Char)
    (h : hasClmPattern (msg.map Char.toLower) = true) :
    ∃ m, reSearchClm (msg.map Char.toLower) = some m ∧
      clmShape m = true ∧ (m <:+: msg.map Char.toLower) ∧
      classify msg = .idLookup (m.map Char.toUpper) := by
  have hs := reSearchClm_isSome_of_hasClmPattern _ h
  obtain ⟨m, hm⟩ := Option.isSome_iff_exists.mp hs
  obtain ⟨h1, h2⟩ := reSearchClm_shape _ _ hm
  exact ⟨m, hm, h1, h2, by simp [classify, hm]⟩

theorem classify_id_lookup_uppercase_witness :
    hasClmPattern ("How many CLM-Ab12 count".toList.map Char.toLower) = true ∧
    (∃ m, reSearchClm ("How many CLM-Ab12 count".toList.map Char.toLower) = some m ∧
      clmShape m = true ∧ (m <:+: "How many CLM-Ab12 count".toList.map Char.toLower) ∧
      classify "How many CLM-Ab12 count".toList = .idLookup (m.map Char.toUpper)) :=
  ⟨by decide, classify_id_lookup_uppercase "How many CLM-Ab12 count".toList (by decide)⟩

/-- C8: a build attempt that finds no rows, no row with an identifier, or
a failing embedding step leaves the snapshot unset when it was unset
before the attempt (the only situation in which the lazy builder runs),
so every subsequent semantic search degrades to fallback; the build is a
total function of its inputs, the internal try/except never letting the
failure reach the caller. -/
theorem build_failure_leaves_index_unset (st : RagState) (ext : ExtModel)
    (fetch : Except (List Char) (List Claim))
    (h0 : st.index = none)
    (hfail : (∃ claims, fetch = .ok claims ∧ claims.filter truthyId = []) ∨
      ext.encodeFails = true) :
    (buildRag st ext fetch).index = none ∧
    ∀ q k t, searchStep (buildRag st ext fetch) ext q k t =
      (buildRag st ext fetch, ⟨[], true⟩) := by
  have hidx : (buildRag st ext fetch).index = none := by
    cases fetch with
    | error e => simp [buildRag]
    | ok claims =>
      rcases hfail with ⟨claims', heq, hfilter⟩ | henc
      · injection heq with heq2
        subst heq2
        by_cases h1 : claims = []
        · subst h1
          simp [buildRag, h0]
        · simp [buildRag, h1, hfilter, h0]
      · by_cases h1 : claims = []
        · subst h1
          simp [buildRag, h0]
        · by_cases h2 : claims.filter truthyId = []
          · simp [buildRag, h1, h2, h0]
          · simp [buildRag, h1, h2, henc, List.map_eq_nil_iff]
  exact ⟨hidx, fun q k t => searchStep_of_index_none _ ext q k t hidx⟩

theorem build_failure_leaves_index_unset_witness :
    stNone.index = none ∧
    ([claimNoId].filter truthyId = []) ∧
    (buildRag stNone extW (.ok [claimNoId])).index = none ∧
    ∀ q k t, searchStep (buildRag stNone extW (.ok [claimNoId])) extW q k t =
      (buildRag stNone extW (.ok [claimNoId]), ⟨[], true⟩) := by
  refine ⟨rfl, by decide, ?_⟩
  exact build_failure_leaves_index_unset stNone extW (.ok [claimNoId]) rfl
    (.inl ⟨[claimNoId], rfl, by decide⟩)

/-- A store whose count query raises (the connection failure surfaces as
an exception re-raised by Database.execute_query). -/
def cexDb : Db :=
  ⟨.ok [], fun _ => .ok [], .error "connection refused".toList⟩

/-- A built snapshot of one document at vector 1. -/
def stW2 : RagState := ⟨some [[1]], [claimA], []⟩

/-- C2, counterexample: a store-query failure during a count is not
propagated to the caller as a hard failure. With the count query raising,
the chat stream is a normally terminated stream whose single chunk is the
in-band error fragment of the catch-all handler in stream_response,
followed by the done frame: the failure has been converted into a
degraded in-band response, identical in shape to a generation failure. -/
theorem store_failure_masked_cex :
    chatStream stW2 cexDb extW 1 "how many claims are there".toList none =
      [.chunk (errFrag "connection refused".toList), .done] := by decide

/-- C2, amended: a store-query failure during structured lookup or count
propagates out of the routing section uncaught, but is then caught by the
catch-all handler of the streamer and surfaced as the single in-band
error fragment, after which the stream terminates with the done frame; no
exception reaches the caller (the modelled stream is a total function). -/
theorem store_failure_in_band (st : RagState) (db : Db) (ext : ExtModel)
    (t : ℤ) (msg : List Char) (e : List Char) (convId : Option (List Char))
    (hroute :
      (∃ m, reSearchClm (msg.map Char.toLower) = some m ∧
        db.lookupById (m.map Char.toUpper) = .error e) ∨
      (reSearchClm (msg.map Char.toLower) = none ∧
        countKeywords.any (fun kw => decide (kw <:+: msg.map Char.toLower)) = true ∧
        db.countTotal = .error e)) :
    (streamResponse st db ext t msg convId).2 = [errFrag e] ∧
    chatStream st db ext t msg convId = [.chunk (errFrag e), .done] := by
  have hctx : routeContext (postBuildState st db ext) db ext t msg = .error e := by
    rcases hroute with ⟨m, h1, h2⟩ | ⟨h1, h2, h3⟩
    · simp only [routeContext, classify, h1, h2]
      rfl
    · simp only [routeContext, classify, h1, h2, h3]
      rfl
  constructor
  · simp [streamResponse, hctx]
  · simp [chatStream, streamResponse, hctx]

theorem store_failure_in_band_witness :
    (reSearchClm ("how many claims are there".toList.map Char.toLower) = none ∧
      countKeywords.any
        (fun kw => decide (kw <:+: "how many claims are there".toList.map Char.toLower)) = true ∧
      cexDb.countTotal = .error "connection refused".toList) ∧
    (streamResponse stW2 cexDb extW 1 "how many claims are there".toList none).2 =
      [errFrag "connection refused".toList] ∧
    chatStream stW2 cexDb extW 1 "how many claims are there".toList none =
      [.chunk (errFrag "connection refused".toList), .done] :=
  ⟨⟨by decide, by decide, rfl⟩,
    store_failure_in_band stW2 cexDb extW 1 "how many claims are there".toList
      "connection refused".toList none (.inr ⟨by decide, by decide, rfl⟩)⟩

/-- A built snapshot of one document at vector 2, whose distance from the
constant query embedding 0 exceeds the threshold 1. -/
def stW3 : RagState := ⟨some [[2]], [claimA], []⟩

/-- C5: when the generative-model call raises before producing any chunk,
the stream yields exactly one fragment, the visibly marked error message
of the catch-all handler, and the endpoint then emits the terminal done
frame; the modelled stream is a total function, so no exception crosses
the stream boundary to the caller. -/
theorem gen_failure_single_error_fragment (st : RagState) (db : Db)
    (ext : ExtModel) (t : ℤ) (msg ctx e : List Char) (convId : Option (List Char))
    (hctx : routeContext (postBuildState st db ext) db ext t msg = .ok ctx)
    (hgen : ext.gen (promptOf ctx msg) = ⟨[], some e⟩) :
    (streamResponse st db ext t msg convId).2 = [errFrag e] ∧
    chatStream st db ext t msg convId = [.chunk (errFrag e), .done] := by
  constructor
  · simp [streamResponse, hctx, hgen, genFragments]
  · simp [chatStream, streamResponse, hctx, hgen, genFragments]

theorem gen_failure_single_error_fragment_witness :
    (routeContext (postBuildState stW3 (storeDb []) extGenFailW) (storeDb [])
        extGenFailW 1 "hello".toList = .ok noDataMsg ∧
      extGenFailW.gen (promptOf noDataMsg "hello".toList) = ⟨[], some "boom".toList⟩) ∧
    (streamResponse stW3 (storeDb []) extGenFailW 1 "hello".toList none).2 =
      [errFrag "boom".toList] ∧
    chatStream stW3 (storeDb []) extGenFailW 1 "hello".toList none =
      [.chunk (errFrag "boom".toList), .done] :=
  ⟨⟨by rfl, rfl⟩,
    gen_failure_single_error_fragment stW3 (storeDb []) extGenFailW 1
      "hello".toList noDataMsg "boom".toList none (by rfl) rfl⟩

theorem getLastD_cons_concat {α : Type} (x d a : α) (l : List α) :
    (x :: (l ++ [a])).getLast?.getD d = a := by
  induction l generalizing x with
  | nil => rfl
  | cons y ys ih =>
    rw [List.cons_append, List.getLast?_cons_cons]
    exact ih y

/-- The state of the old snapshot used by the rebuild counterexample. -/
def cexOld : RagState := ⟨some [[1]], [claimA], ["t".toList]⟩

/-- The mixed intermediate state of the rebuild counterexample: the new
metadata fully appended while the installed vector index is still the old
one. -/
def cexMixed : RagState := ⟨some [[1]], [claimB], [renderDoc claimB]⟩

/-- C7, counterexample: a rebuild does mutate the snapshot in place. With
an old one-document snapshot installed and one new row fetched, the
sequence of states passed through by _build_rag_index contains a state
that pairs the complete new document metadata with the old vector index,
and that is neither the old nor the final snapshot: the metadata lists
are cleared and refilled in place while the old index reference stays
installed until the final assignment. -/
theorem rebuild_mixed_state_cex :
    cexMixed ∈ buildTrace cexOld extW (.ok [claimB]) ∧
    cexMixed.index = cexOld.index ∧
    cexMixed.metadata ≠ cexOld.metadata ∧
    cexMixed ≠ cexOld ∧
    cexMixed ≠ buildRag cexOld extW (.ok [claimB]) := by decide

/-- C7, amended: the mutation sequence of a rebuild starts at the
unmodified old state, which is also the state visible at the single
suspension point of the build (the store fetch precedes every mutation),
and its last state is exactly the completed result of the build; under
the cooperative single-threaded scheduler, concurrent readers interleave
only at suspension points and therefore observe the complete old snapshot
or the completed build result, while the in-place mixed intermediate
states (see the counterexample) lie between suspension points. -/
theorem rebuild_cooperative_visibility (st : RagState) (ext : ExtModel)
    (fetch : Except (List Char) (List Claim)) :
    (buildTrace st ext fetch).head? = some st ∧
    (buildTrace st ext fetch).getLastD st = buildRag st ext fetch := by
  constructor
  · cases fetch with
    | error e => rfl
    | ok claims =>
      by_cases h1 : claims = []
      · subst h1; rfl
      · by_cases h2 : claims.filter truthyId = []
        · simp [buildTrace, h1, h2]
        · simp [buildTrace, h1, h2]
  · cases fetch with
    | error e => rfl
    | ok claims =>
      by_cases h1 : claims = []
      · subst h1; rfl
      · by_cases h2 : claims.filter truthyId = []
        · simp [buildTrace, buildRag, h1, h2]
        · by_cases h3 : ext.encodeFails
          · simp [buildTrace, buildRag, h1, h2, h3, List.map_eq_nil_iff,
              getLastD_cons_concat]
          · simp [buildTrace, buildRag, h1, h2, h3, List.map_eq_nil_iff,
              getLastD_cons_concat]

theorem faissSearch_valid_for (meta : List Claim) (vecs : List (List ℤ))
    (q : List ℤ) (k : Nat) (hne : meta ≠ []) (hlen : meta.length = vecs.length) :
    ∀ i ∈ (faissSearch vecs q k).map Prod.snd, (pyIndex meta i).isSome = true := by
  intro i hi
  obtain ⟨p, hp, rfl⟩ := List.mem_map.mp hi
  refine pyIndex_isSome meta hne p.2 ?_
  rcases faissSearch_labels vecs q k p hp with h | ⟨h0, hlt⟩
  · exact .inl h
  · refine .inr ⟨h0, ?_⟩
    rw [hlen]
    exact hlt

/-- C1: on a built snapshot (index installed over a nonempty, aligned
metadata list), fallback_needed is true exactly when the nearest-neighbor
result is empty or the rank-0 distance strictly exceeds the threshold; in
particular a rank-0 distance equal to the threshold does not trigger
fallback, while a rank-0 distance of threshold plus any positive excess
does. -/
theorem search_fallback_gate (st : RagState) (ext : ExtModel) (q : List Char)
    (k : Nat) (t : ℤ) (vecs : List (List ℤ))
    (hidx : st.index = some vecs) (hne : st.metadata ≠ [])
    (hlen : st.metadata.length = vecs.length) :
    ((searchRagIndex st ext q k t).fallback_needed = true ↔
      (faissSearch vecs (ext.embed q) k = [] ∨
        t < rank0 (faissSearch vecs (ext.embed q) k)))
    ∧ (faissSearch vecs (ext.embed q) k ≠ [] →
        rank0 (faissSearch vecs (ext.embed q) k) = t →
        (searchRagIndex st ext q k t).fallback_needed = false)
    ∧ (∀ ε : ℤ, 0 < ε →
        rank0 (faissSearch vecs (ext.embed q) k) = t + ε →
        (searchRagIndex st ext q k t).fallback_needed = true) := by
  obtain ⟨idx, meta, texts⟩ := st
  simp only at hidx hne hlen
  subst hidx
  have hem : meta.isEmpty = false := List.isEmpty_eq_false.mpr hne
  have hres := pyGetList_eq_map meta ((faissSearch vecs (ext.embed q) k).map Prod.snd)
    (faissSearch_valid_for meta vecs (ext.embed q) k hne hlen)
  by_cases hgate : faissSearch vecs (ext.embed q) k = [] ∨
      t < rank0 (faissSearch vecs (ext.embed q) k)
  · have hfb : (searchRagIndex ⟨some vecs, meta, texts⟩ ext q k t).fallback_needed = true := by
      simp [searchRagIndex, hem, hgate]
    refine ⟨⟨fun _ => hgate, fun _ => hfb⟩, fun hne2 heq => ?_, fun ε hε heq => hfb⟩
    exfalso
    rcases hgate with h | h
    · exact hne2 h
    · rw [heq] at h
      exact lt_irrefl t h
  · have hfb : (searchRagIndex ⟨some vecs, meta, texts⟩ ext q k t).fallback_needed = false := by
      simp [searchRagIndex, hem, hgate, hres]
    push_neg at hgate
    obtain ⟨h1, h2⟩ := hgate
    refine ⟨?_, fun _ _ => hfb, fun ε hε heq => ?_⟩
    · rw [hfb]
      simp only [Bool.false_eq_true, false_iff]
      push_neg
      exact ⟨h1, h2⟩
    · exfalso
      rw [heq] at h2
      omega

theorem search_fallback_gate_witness :
    (stW1.index = some [[0], [3]] ∧ stW1.metadata ≠ [] ∧
      stW1.metadata.length = [[(0 : ℤ)], [3]].length) ∧
    (((searchRagIndex stW1 extW "pending dental".toList 3 1).fallback_needed = true ↔
      (faissSearch [[0], [3]] (extW.embed "pending dental".toList) 3 = [] ∨
        1 < rank0 (faissSearch [[0], [3]] (extW.embed "pending dental".toList) 3)))
    ∧ (faissSearch [[0], [3]] (extW.embed "pending dental".toList) 3 ≠ [] →
        rank0 (faissSearch [[0], [3]] (extW.embed "pending dental".toList) 3) = 1 →
        (searchRagIndex stW1 extW "pending dental".toList 3 1).fallback_needed = false)
    ∧ (∀ ε : ℤ, 0 < ε →
        rank0 (faissSearch [[0], [3]] (extW.embed "pending dental".toList) 3) = 1 + ε →
        (searchRagIndex stW1 extW "pending dental".toList 3 1).fallback_needed = true)) :=
  ⟨⟨rfl, by decide, rfl⟩,
    search_fallback_gate stW1 extW "pending dental".toList 3 1 [[0], [3]]
      rfl (by decide) rfl⟩

/-- C10: on a built snapshot holding at least one but fewer than k
documents whose rank-0 distance clears the threshold, the search still
returns k results: the nearest-neighbor search pads the missing slots
with label -1, Python indexing maps -1 to the last metadata entry, and
the returned list therefore ends in spurious copies of the last snapshot
document, which then occurs at least twice in the result list. -/
theorem search_small_snapshot_padding (st : RagState) (ext : ExtModel)
    (q : List Char) (k : Nat) (t : ℤ) (vecs : List (List ℤ))
    (hidx : st.index = some vecs) (hlen : st.metadata.length = vecs.length)
    (hn : 1 ≤ vecs.length) (hk : vecs.length < k)
    (hrank : rank0 (faissSearch vecs (ext.embed q) k) ≤ t) :
    ∃ last res, st.metadata.getLast? = some last ∧
      searchRagIndex st ext q k t = ⟨res, false⟩ ∧
      res.length = k ∧
      res.drop vecs.length = List.replicate (k - vecs.length) last ∧
      2 ≤ res.count last := by
  obtain ⟨idx, meta, texts⟩ := st
  simp only at hidx hlen
  subst hidx
  have hmlen : meta.length = vecs.length := hlen
  have hmpos : 0 < meta.length := by omega
  have hne : meta ≠ [] := List.length_pos.mp hmpos
  have hem : meta.isEmpty = false := List.isEmpty_eq_false.mpr hne
  have hidxlt : meta.length - 1 < meta.length := by omega
  obtain ⟨last, hlast⟩ : ∃ x, meta.getLast? = some x := by
    rw [List.getLast?_eq_getElem?, List.getElem?_eq_getElem hidxlt]
    exact ⟨_, rfl⟩
  have hpy_neg1 : pyIndex meta (-1) = some last := by
    unfold pyIndex
    rw [if_neg (by decide),
      if_pos (by rw [show ((-1 : ℤ).natAbs) = 1 from rfl]; omega)]
    rw [show ((-1 : ℤ).natAbs) = 1 from rfl, ← List.getLast?_eq_getElem?]
    exact hlast
  have hpy_top : pyIndex meta ((meta.length - 1 : Nat) : ℤ) = some last := by
    unfold pyIndex
    rw [if_pos (Int.ofNat_nonneg _)]
    rw [show ((meta.length - 1 : Nat) : ℤ).toNat = meta.length - 1 from by omega]
    rw [← List.getLast?_eq_getElem?]
    exact hlast
  have hslen : (faissScores vecs (ext.embed q)).length = vecs.length := by
    simp [faissScores]
  have hsortlen : (sortScores (faissScores vecs (ext.embed q))).length = vecs.length := by
    rw [length_sortScores, hslen]
  have htake : (sortScores (faissScores vecs (ext.embed q))).take k =
      sortScores (faissScores vecs (ext.embed q)) :=
    List.take_of_length_le (by omega)
  have hdr : faissSearch vecs (ext.embed q) k =
      sortScores (faissScores vecs (ext.embed q)) ++
        List.replicate (k - vecs.length) (fltMax, -1) := by
    unfold faissSearch
    rw [htake]
  have hlen2 : (faissSearch vecs (ext.embed q) k).length = k := by
    rw [hdr, List.length_append, hsortlen, List.length_replicate]
    omega
  have hdrne : faissSearch vecs (ext.embed q) k ≠ [] := by
    intro h
    rw [h] at hlen2
    simp at hlen2
    omega
  have hgate : ¬(faissSearch vecs (ext.embed q) k = [] ∨
      t < rank0 (faissSearch vecs (ext.embed q) k)) := by
    push_neg
    exact ⟨hdrne, hrank⟩
  have hvalid := faissSearch_valid_for meta vecs (ext.embed q) k hne hmlen
  have hres := pyGetList_eq_map meta _ hvalid
  have hsearch : searchRagIndex ⟨some vecs, meta, texts⟩ ext q k t =
      ⟨List.map (fun i => (pyIndex meta i).iget)
        ((faissSearch vecs (ext.embed q) k).map Prod.snd), false⟩ := by
    simp [searchRagIndex, hem, hgate, hres]
  have hlabels : (faissSearch vecs (ext.embed q) k).map Prod.snd =
      (sortScores (faissScores vecs (ext.embed q))).map Prod.snd ++
        List.replicate (k - vecs.length) (-1 : ℤ) := by
    rw [hdr, List.map_append, List.map_replicate]
  have hresform : List.map (fun i => (pyIndex meta i).iget)
        ((faissSearch vecs (ext.embed q) k).map Prod.snd) =
      ((sortScores (faissScores vecs (ext.embed q))).map Prod.snd).map
          (fun i => (pyIndex meta i).iget) ++
        List.replicate (k - vecs.length) last := by
    rw [hlabels, List.map_append, List.map_replicate]
    congr 1
    rw [hpy_neg1]
  have hAlen : (((sortScores (faissScores vecs (ext.embed q))).map Prod.snd).map
      (fun i => (pyIndex meta i).iget)).length = vecs.length := by
    simp [hsortlen]
  refine ⟨last, _, hlast, hsearch, ?_, ?_, ?_⟩
  · rw [List.length_map, List.length_map, hlen2]
  · rw [hresform, ← hAlen, List.drop_left]
  · rw [hresform, List.count_append]
    have hmem_label : ((meta.length - 1 : Nat) : ℤ) ∈
        (sortScores (faissScores vecs (ext.embed q))).map Prod.snd := by
      refine List.mem_map.mpr
        ⟨(sqDist (ext.embed q) (vecs.getD (meta.length - 1) []),
          ((meta.length - 1 : Nat) : ℤ)), ?_, rfl⟩
      refine mem_sortScores.mpr ?_
      exact List.mem_map.mpr ⟨meta.length - 1, List.mem_range.mpr (by omega), rfl⟩
    have hmemA : last ∈ ((sortScores (faissScores vecs (ext.embed q))).map Prod.snd).map
        (fun i => (pyIndex meta i).iget) := by
      refine List.mem_map.mpr ⟨_, hmem_label, ?_⟩
      rw [hpy_top]
    have h1le : 0 < (((sortScores (faissScores vecs (ext.embed q))).map Prod.snd).map
        (fun i => (pyIndex meta i).iget)).count last :=
      List.count_pos_iff.mpr hmemA
    have hrep : (List.replicate (k - vecs.length) last).count last = k - vecs.length :=
      List.count_replicate_self last (k - vecs.length)
    omega

theorem search_small_snapshot_padding_witness :
    (stW1.index = some [[0], [3]] ∧
      stW1.metadata.length = [[(0 : ℤ)], [3]].length ∧
      1 ≤ [[(0 : ℤ)], [3]].length ∧ [[(0 : ℤ)], [3]].length < 3 ∧
      rank0 (faissSearch [[0], [3]] (extW.embed "pending dental".toList) 3) ≤ 1) ∧
    (∃ last res, stW1.metadata.getLast? = some last ∧
      searchRagIndex stW1 extW "pending dental".toList 3 1 = ⟨res, false⟩ ∧
      res.length = 3 ∧
      res.drop [[(0 : ℤ)], [3]].length = List.replicate (3 - [[(0 : ℤ)], [3]].length) last ∧
      2 ≤ res.count last) :=
  ⟨⟨rfl, rfl, by decide, by decide, by decide⟩,
    search_small_snapshot_padding stW1 extW "pending dental".toList 3 1 [[0], [3]]
      rfl rfl (by decide) (by decide) (by decide)⟩
